import Mathlib

/-!
Verification of the neurogens-backend catalog pipeline (src/main.py).

The Python source is shallowly embedded below.  Strings are modelled by
Lean `String` with Python-faithful primitives implemented over `List Char`:
`str.lower` (ASCII case mapping, which agrees with Python on the ASCII
inputs relevant here), `str.splitlines` (modelled for the `'\n'` line
terminator), `str.strip`, `str.startswith`, `x in s` substring membership,
and `str.split(sep, 1)`.  External collaborators (the generative-model
call, the search fetch + HTML parse, the document store, image decoding,
and werkzeug's `secure_filename`) are modelled as explicit per-item
oracle data / function parameters, with failure carried in `Except`,
mirroring the Python `try`/`except` structure.
-/

/-! ## Python string primitives -/

/-- Lower-case a character list (Python `str.lower` restricted to ASCII,
via `Char.toLower`). -/
def toLowerL (l : List Char) : List Char := l.map Char.toLower

/-- Python `str.lower` on strings. -/
def pyLower (s : String) : String := String.mk (toLowerL s.data)

/-- Substring containment on character lists: some suffix of `hay`
has `needle` as a leading segment (Python `needle in hay`). -/
def containsL (hay needle : List Char) : Bool :=
  hay.tails.any (fun t => needle.isPrefixOf t)

/-- Python `needle in hay` on strings. -/
def pyContains (hay needle : String) : Bool := containsL hay.data needle.data

/-- Split a character list at every newline character (keeps a trailing
empty segment when the list ends in a newline). -/
def splitNl : List Char → List (List Char)
  | [] => [[]]
  | c :: cs =>
    if c = '\n' then [] :: splitNl cs
    else
      match splitNl cs with
      | [] => [[c]]
      | h :: t => (c :: h) :: t

/-- Python `str.splitlines` on character lists (for `'\n'`-terminated
lines): the empty string gives no lines, and a trailing newline does not
produce a final empty line. -/
def pySplitlinesL (l : List Char) : List (List Char) :=
  if l = [] then []
  else
    let p := splitNl l
    if p.getLast? = some [] then p.dropLast else p

/-- Python `str.splitlines` on strings. -/
def pySplitlines (s : String) : List String :=
  (pySplitlinesL s.data).map String.mk

/-- Python whitespace characters stripped by `str.strip()` (the ASCII ones). -/
def isPyWs (c : Char) : Bool :=
  c = ' ' || c = '\t' || c = '\n' || c = '\r' || c = '\x0b' || c = '\x0c'

/-- Python `str.strip()` on character lists. -/
def pyStripL (l : List Char) : List Char :=
  ((l.dropWhile isPyWs).reverse.dropWhile isPyWs).reverse

/-- Python `str.strip()` on strings. -/
def pyStrip (s : String) : String := String.mk (pyStripL s.data)

/-- Python `s.startswith(pre)`. -/
def pyStartswith (s pre : String) : Bool := pre.data.isPrefixOf s.data

/-- Python `s.split(sep, 1)` on character lists: at most one split, at the
first occurrence of `sep`. -/
def pySplitOnce (sep : Char) : List Char → List (List Char)
  | [] => [[]]
  | c :: cs =>
    if c = sep then [[], cs]
    else
      match pySplitOnce sep cs with
      | [] => [[c]]
      | h :: t => (c :: h) :: t

/-- Python `"\n".join(lines)`. -/
def joinNl (lines : List String) : String :=
  String.mk (List.intercalate ['\n'] (lines.map String.data))

/-! ## src/main.py: classify_category -/

/-- Embedding of `classify_category` (src/main.py lines 61-72): lower-case
`f"{name} {desc}"` and walk the if/elif keyword chain, first match wins,
default `"Other"`. -/
def classify_category (name desc : String) : String :=
  let text := pyLower (name ++ " " ++ desc)
  if ["laptop", "phone", "tablet", "tv", "headphones"].any (fun k => pyContains text k) then
    "Electronics"
  else if ["car", "bike", "scooter", "truck"].any (fun k => pyContains text k) then
    "Automobile"
  else if ["shirt", "jeans", "dress", "shoes", "sneakers"].any (fun k => pyContains text k) then
    "Fashion"
  else if ["bat", "ball", "cricket", "tennis", "football"].any (fun k => pyContains text k) then
    "Sports"
  else if ["sofa", "table", "chair", "bed"].any (fun k => pyContains text k) then
    "Furniture"
  else if ["fridge", "microwave", "washing machine"].any (fun k => pyContains text k) then
    "Appliances"
  else if ["book", "novel", "textbook"].any (fun k => pyContains text k) then
    "Books"
  else if ["makeup", "cream", "perfume"].any (fun k => pyContains text k) then
    "Beauty"
  else if ["toy", "doll", "lego"].any (fun k => pyContains text k) then
    "Toys"
  else "Other"

/-- The nine ordered keyword groups of the classifier, as an explicit
`(label, keywords)` table (the spec's view of the source's if/elif chain). -/
def categoryGroups : List (String × List String) :=
  [("Electronics", ["laptop", "phone", "tablet", "tv", "headphones"]),
   ("Automobile", ["car", "bike", "scooter", "truck"]),
   ("Fashion", ["shirt", "jeans", "dress", "shoes", "sneakers"]),
   ("Sports", ["bat", "ball", "cricket", "tennis", "football"]),
   ("Furniture", ["sofa", "table", "chair", "bed"]),
   ("Appliances", ["fridge", "microwave", "washing machine"]),
   ("Books", ["book", "novel", "textbook"]),
   ("Beauty", ["makeup", "cream", "perfume"]),
   ("Toys", ["toy", "doll", "lego"])]

/-- A group matches a text when some of its keywords occurs in the text. -/
def groupMatches (text : String) (g : String × List String) : Bool :=
  g.2.any (fun k => pyContains text k)

/-- Label of the first matching group in an ordered table, else `"Other"`. -/
def firstLabel (text : String) : List (String × List String) → String
  | [] => "Other"
  | g :: gs => if g.2.any (fun k => pyContains text k) then g.1 else firstLabel text gs

/-- Modelled from the claim's words (C2, as stated): lower-case the plain
concatenation `name ++ desc` and return the first matching group's label. -/
def claimClassifyConcat (name desc : String) : String :=
  firstLabel (pyLower (name ++ desc)) categoryGroups

/-- The amended claim's classifier: lower-case the space-separated
concatenation (as the source builds `f"{name} {desc}"`) and return the
first matching group's label. -/
def claimClassifySpaced (name desc : String) : String :=
  firstLabel (pyLower (name ++ " " ++ desc)) categoryGroups

/-- The fixed closed category set of the data model. -/
def fixedCategories : List String :=
  ["Electronics", "Automobile", "Fashion", "Sports", "Furniture",
   "Appliances", "Books", "Beauty", "Toys", "Other"]

/-! ## src/main.py: response parsing and augmentation decision
(inlined in `generate_catalog`, lines 98-117) -/

/-- Embedding of the product-name extraction (src/main.py lines 98-104):
the first line whose lower-cased form starts with `"product name"` yields
`line.split(":", 1)[-1].strip()`; default `"Unknown"`. -/
def extract_product_name (catalog_text : String) : String :=
  match (pySplitlines catalog_text).find?
      (fun line => pyStartswith (pyLower line) "product name") with
  | some line => pyStrip (String.mk ((pySplitOnce ':' line.data).getLastD []))
  | none => "Unknown"

/-- Embedding of the specifications-block extraction (src/main.py lines
106-111): all lines after the first line whose lower-cased form starts
with `"specifications"`, joined with `"\n"` and stripped; default `""`. -/
def extract_specs (catalog_text : String) : String :=
  let lines := pySplitlines catalog_text
  match lines.findIdx? (fun line => pyStartswith (pyLower line) "specifications") with
  | some i => pyStrip (joinNl (lines.drop (i + 1)))
  | none => ""

/-- Embedding of the `needs_scrape` condition (src/main.py lines 113-116). -/
def needs_scrape (specs_section : String) : Bool :=
  specs_section == "" || decide ((pySplitlines specs_section).length < 5) ||
    (pySplitlines specs_section).any
      (fun line => pyContains line "Requires further information")

/-! ## src/main.py: scrape_specs (lines 47-58)

The `requests.get` + BeautifulSoup parse is an external collaborator; it
is modelled by an oracle `fetch : Except String (List String)`: either a
transport/parse failure with its message, or the list of snippet texts
(already `get_text(strip=True)`-extracted; selector-not-found gives `[]`). -/

/-- The snippets whose lower-cased text contains the first five characters
of the lower-cased product name (src/main.py line 55). -/
def matchingSnippets (product_name : String) (snippets : List String) : List String :=
  snippets.filter
    (fun s => pyContains (pyLower s) (String.mk ((pyLower product_name).data.take 5)))

/-- Embedding of `scrape_specs`: a failed fetch becomes the
`"Web scraping failed: ..."` string (the `except` branch), an empty match
list becomes the fixed no-specs message, and otherwise the first five
matching snippets are hyphen-bulleted and joined. -/
def scrape_specs (fetch : Except String (List String)) (product_name : String) : String :=
  match fetch with
  | .error e => "Web scraping failed: " ++ e
  | .ok snippets =>
    let info := matchingSnippets product_name snippets
    if info.isEmpty then "No detailed specs found online."
    else joinNl ((info.take 5).map (fun i => "- " ++ i))

/-! ## src/main.py: generate_catalog (lines 80-149)

Each uploaded file carries its own oracle data for the external effects
that can raise inside the per-item `try` block: the staging `file.save`,
the `Image.open` decode, the Gemini `generate_content` call (whose `.ok`
value is the raw response text), the search fetch used by `scrape_specs`,
and the MongoDB `insert_one`.  `secure_filename` (werkzeug) is an external
function parameter. -/

instance {ε α : Type} [DecidableEq ε] [DecidableEq α] : DecidableEq (Except ε α)
  | .error a, .error b =>
    if h : a = b then .isTrue (by rw [h]) else .isFalse (by simp [h])
  | .error _, .ok _ => .isFalse (by simp)
  | .ok _, .error _ => .isFalse (by simp)
  | .ok a, .ok b =>
    if h : a = b then .isTrue (by rw [h]) else .isFalse (by simp [h])

structure CatalogRecord where
  filename : String
  product_name : String
  category : String
  catalog_entry : String
  web_scraped_info : String
  deriving Repr, DecidableEq

structure UploadItem where
  rawFilename : String
  save : Except String Unit
  decode : Except String Unit
  modelResp : Except String String
  fetch : Except String (List String)
  insert : Except String Unit
  deriving Repr, DecidableEq

/-- One per-item entry of the JSON response: the success shape
`{filename, product_name, category, catalog_entry}` (carrying the
persisted record) or the error shape `{filename, error}`. -/
inductive ItemResult where
  | ok (record : CatalogRecord)
  | err (filename : String) (message : String)
  deriving Repr, DecidableEq

/-- The record assembled for a successfully processed item (src/main.py
lines 98-135): parse, decide augmentation, scrape if needed, classify,
and append the web section to the catalog text when one was fetched. -/
def buildRecord (it : UploadItem) (secure : String → String) (catalog_text : String) :
    CatalogRecord :=
  let product_name := extract_product_name catalog_text
  let specs_section := extract_specs catalog_text
  let web_info :=
    if needs_scrape specs_section then scrape_specs it.fetch product_name else ""
  let category := classify_category product_name catalog_text
  { filename := secure it.rawFilename
    product_name := product_name
    category := category
    catalog_entry :=
      if web_info == "" then catalog_text
      else catalog_text ++ "\n\n🔎 Additional Info from Web:\n" ++ web_info
    web_scraped_info := web_info }

/-- Processing of one uploaded item: the body of the per-file `try` block;
the first failing external call yields the `except` branch's error entry,
which reports the raw (unsanitized) `file.filename`. -/
def processItem (secure : String → String) (it : UploadItem) : ItemResult :=
  match it.save with
  | .error e => .err it.rawFilename e
  | .ok _ =>
    match it.decode with
    | .error e => .err it.rawFilename e
    | .ok _ =>
      match it.modelResp with
      | .error e => .err it.rawFilename e
      | .ok rawText =>
        match it.insert with
        | .error e => .err it.rawFilename e
        | .ok _ => .ok (buildRecord it secure (pyStrip rawText))

/-- Embedding of the `generate_catalog` batch loop: every file is
processed independently, results collected in input order. -/
def generate_catalog (secure : String → String) (files : List UploadItem) :
    List ItemResult :=
  files.map (processItem secure)

/-! ## src/main.py: export_pdf (lines 158-202)

The ReportLab canvas is modelled as a list of pages, each a list of draw
operations, plus the `y` cursor; `base64.b64decode` + `Image.open` on a
stored record is modelled by `image_decode : Option (Nat × Nat)` giving
the source image dimensions (`none` = decode failure, caught by the
per-record `except: continue`).  A zero dimension makes the Python layout
arithmetic raise `ZeroDivisionError`, also caught, so it too skips the
record.  Page geometry uses exact rationals for A4 (210mm × 297mm in
points). -/

inductive PdfOp where
  | img (srcW srcH : Nat) (x y w h : ℚ)
  | text (line : String)
  deriving Repr, DecidableEq

structure DbEntry where
  image_decode : Option (Nat × Nat)
  catalog_entry : String
  deriving Repr, DecidableEq

def pageWidth : ℚ := 75600 / 127

def pageHeight : ℚ := 106920 / 127

structure ExportState where
  pages : List (List PdfOp)
  cur : List PdfOp
  y : ℚ

/-- Canvas `showPage` plus the cursor/text-object reset that always
follows it in the source. -/
def showPage (st : ExportState) : ExportState :=
  { pages := st.pages ++ [st.cur], cur := [], y := pageHeight - 40 }

/-- One iteration of the text loop (src/main.py lines 183-191): flush and
start a new page when the cursor is below 100, then draw the line. -/
def textLineStep (st : ExportState) (line : String) : ExportState :=
  let st1 := if st.y < 100 then showPage st else st
  { st1 with cur := st1.cur ++ [PdfOp.text line], y := st1.y - 12 }

/-- The drawn image size (src/main.py lines 171-176): scale to page width
minus margins, capped at height 300 preserving aspect ratio. -/
def imgDims (w h : Nat) : ℚ × ℚ :=
  let ih0 : ℚ := (pageWidth - 80) * h / w
  if ih0 > 300 then (300 * ((w : ℚ) / h), 300) else (pageWidth - 80, ih0)

/-- Rendering of one record (the body of the per-entry `try`): decode
failure (or a zero dimension) leaves the state untouched, otherwise the
image is drawn, the catalog text lines are drawn with pagination, and a
gap (with a possible page break) follows. -/
def drawEntry (st : ExportState) (e : DbEntry) : ExportState :=
  match e.image_decode with
  | none => st
  | some (w, h) =>
    if w = 0 ∨ h = 0 then st
    else
      let dims := imgDims w h
      let st1 : ExportState :=
        { st with
            cur := st.cur ++ [PdfOp.img w h 40 (st.y - dims.2) dims.1 dims.2],
            y := st.y - (dims.2 + 10) }
      let st2 := (pySplitlines e.catalog_entry).foldl textLineStep st1
      let st3 : ExportState := { st2 with y := st2.y - 40 }
      if st3.y < 200 then showPage st3 else st3

/-- Embedding of `export_pdf`: fold the records through `drawEntry` and
finalize (canvas `save` emits the pending page).  Total: no error is ever
returned to the caller. -/
def export_pdf (entries : List DbEntry) : List (List PdfOp) :=
  let st := entries.foldl drawEntry { pages := [], cur := [], y := pageHeight - 40 }
  st.pages ++ [st.cur]

/-- All draw operations of a finished document. -/
def docOps (doc : List (List PdfOp)) : List PdfOp := doc.flatten

/-- All draw operations accumulated in an export state. -/
def allOps (st : ExportState) : List PdfOp := st.pages.flatten ++ st.cur

/-- A record whose stored image decodes (with nonzero dimensions, so the
layout arithmetic cannot raise). -/
def decodableB (e : DbEntry) : Bool :=
  match e.image_decode with
  | some (w, h) => !(w == 0 || h == 0)
  | none => false

/-! ## Concrete sample inputs used by the witnesses -/

def respFull : String :=
  "Product Name: Car\nCategory: Automobile\nDescription: d\nSpecifications:\n- a: 1\n- b: 2\n- c: 3\n- d: 4\n- e: 5"

def itemGood : UploadItem :=
  { rawFilename := "a.png", save := .ok (), decode := .ok (),
    modelResp := .ok respFull, fetch := .ok [], insert := .ok () }

def itemBad : UploadItem :=
  { rawFilename := "b.png", save := .ok (),
    decode := .error "cannot identify image file",
    modelResp := .ok respFull, fetch := .ok [], insert := .ok () }

def itemGood2 : UploadItem := { itemGood with rawFilename := "c.png" }

def batch3 : List UploadItem := [itemGood, itemBad, itemGood2]

def entryGood : DbEntry := { image_decode := some (400, 300), catalog_entry := "Hello\nWorld" }

def entryBad : DbEntry := { image_decode := none, catalog_entry := "Lost" }

def entriesEx : List DbEntry := [entryGood, entryBad]

/-! ## Helper lemmas -/

theorem firstLabel_of_first_match (text : String) (l : List (String × List String)) :
    ∀ (i : Nat) (hi : i < l.length),
      groupMatches text (l.get ⟨i, hi⟩) = true →
      (∀ k (hk : k < i), groupMatches text (l.get ⟨k, Nat.lt_trans hk hi⟩) = false) →
      firstLabel text l = (l.get ⟨i, hi⟩).1 := by
  induction l with
  | nil => intro i hi _ _; exact absurd hi (Nat.not_lt_zero i)
  | cons g gs ih =>
    intro i hi hm hb
    cases i with
    | zero =>
      have hm' : g.2.any (fun k => pyContains text k) = true := hm
      simp only [firstLabel, hm', if_true, List.get]
    | succ n =>
      have hg0 : g.2.any (fun k => pyContains text k) = false :=
        hb 0 (Nat.succ_pos n)
      simp only [firstLabel, hg0, Bool.false_eq_true, if_false]
      exact ih n (Nat.lt_of_succ_lt_succ hi) hm
        (fun k hk => hb (k + 1) (Nat.succ_lt_succ hk))

/-! ## C2: classifier order and the shape of the classified text -/

/-- C2 counterexample: the claim says the classifier lower-cases the
concatenation of name and description and tests keyword membership on it.
The source instead tests `f"{name} {desc}"` (a space-separated join): on
`("lap", "top")` the claimed text `"laptop"` contains the Electronics
keyword `"laptop"`, but `classify_category` sees `"lap top"` and returns
`"Other"`. -/
theorem C2_counterexample :
    classify_category "lap" "top" = "Other" ∧
    claimClassifyConcat "lap" "top" = "Electronics" ∧
    classify_category "lap" "top" ≠ claimClassifyConcat "lap" "top" :=
  ⟨by decide, by decide, by decide⟩

/-- C2 (amended): the classifier lower-cases the space-separated
concatenation of name and description and returns the label of the first
of the nine ordered keyword groups containing a matching keyword; in
particular, when groups `i < j` both match and no group before `i`
matches, the result is group `i`'s label. -/
theorem C2_classifier_ordered_first_match (name desc : String) :
    classify_category name desc = claimClassifySpaced name desc ∧
    (∀ (i j : Nat) (hi : i < categoryGroups.length) (hj : j < categoryGroups.length),
      i < j →
      groupMatches (pyLower (name ++ " " ++ desc)) (categoryGroups.get ⟨i, hi⟩) = true →
      groupMatches (pyLower (name ++ " " ++ desc)) (categoryGroups.get ⟨j, hj⟩) = true →
      (∀ k (hk : k < i),
        groupMatches (pyLower (name ++ " " ++ desc))
          (categoryGroups.get ⟨k, Nat.lt_trans hk hi⟩) = false) →
      classify_category name desc = (categoryGroups.get ⟨i, hi⟩).1) := by
  constructor
  · rfl
  · intro i j hi hj _ hmi _ hb
    exact (firstLabel_of_first_match (pyLower (name ++ " " ++ desc))
      categoryGroups i hi hmi hb :
        claimClassifySpaced name desc = (categoryGroups.get ⟨i, hi⟩).1)

/-- C2 witness: `"car bat"` matches both Automobile (index 1) and Sports
(index 3); Electronics (index 0) does not match, and the classifier
returns the earlier label `"Automobile"`. -/
theorem C2_witness :
    classify_category "car bat" "" = claimClassifySpaced "car bat" "" ∧
    groupMatches (pyLower ("car bat" ++ " " ++ "")) (categoryGroups.get ⟨1, by decide⟩) = true ∧
    groupMatches (pyLower ("car bat" ++ " " ++ "")) (categoryGroups.get ⟨3, by decide⟩) = true ∧
    classify_category "car bat" "" = (categoryGroups.get ⟨1, by decide⟩).1 := by
  refine ⟨(C2_classifier_ordered_first_match "car bat" "").1, by decide, by decide, ?_⟩
  refine (C2_classifier_ordered_first_match "car bat" "").2 1 3 (by decide) (by decide)
    (by decide) (by decide) (by decide) ?_
  intro k hk
  have hk0 : k = 0 := by omega
  subst hk0
  have h0 : groupMatches (pyLower ("car bat" ++ " " ++ ""))
      (categoryGroups.get ⟨0, by decide⟩) = false := by decide
  exact h0

/-! ## C8: the category invariant -/

/-- C8: the classifier's return value is always one of the ten fixed
labels, and hence every persisted record's `category` field is a member
of the fixed set. -/
theorem C8_category_in_fixed_set :
    (∀ name desc, classify_category name desc ∈ fixedCategories) ∧
    (∀ (secure : String → String) (it : UploadItem) (r : CatalogRecord),
      processItem secure it = ItemResult.ok r → r.category ∈ fixedCategories) := by
  have h1 : ∀ name desc, classify_category name desc ∈ fixedCategories := by
    intro name desc
    simp only [classify_category]
    split_ifs <;> simp [fixedCategories]
  refine ⟨h1, ?_⟩
  intro secure it r h
  obtain ⟨raw, save, dec, resp, fetch, ins⟩ := it
  cases save with
  | error e => simp [processItem] at h
  | ok u =>
    cases dec with
    | error e => simp [processItem] at h
    | ok u' =>
      cases resp with
      | error e => simp [processItem] at h
      | ok rawText =>
        cases ins with
        | error e => simp [processItem] at h
        | ok u'' =>
          have hr : r = buildRecord ⟨raw, .ok u, .ok u', .ok rawText, fetch, .ok u''⟩
              secure (pyStrip rawText) := by
            simpa [processItem] using h.symm
          rw [hr]
          exact h1 _ _

/-- C8 witness: a concrete successfully processed item yields a record
whose category is in the fixed set. -/
theorem C8_witness :
    ∃ r, processItem id itemGood = ItemResult.ok r ∧ r.category ∈ fixedCategories :=
  ⟨_, rfl, C8_category_in_fixed_set.2 id itemGood _ rfl⟩

/-! ## C9: substring (not whole-word) keyword matching -/

/-- C9: keyword matching is substring containment on the lower-cased
text: whenever the text contains `"bat"` anywhere (also inside a longer
word) and no Electronics, Automobile or Fashion keyword occurs, the
classifier returns `"Sports"`; in particular `"battery"` and `"combat"`
are classified as Sports. -/
theorem C9_substring_matching (name desc : String)
    (hbat : pyContains (pyLower (name ++ " " ++ desc)) "bat" = true)
    (h1 : (["laptop", "phone", "tablet", "tv", "headphones"].any
      (fun k => pyContains (pyLower (name ++ " " ++ desc)) k)) = false)
    (h2 : (["car", "bike", "scooter", "truck"].any
      (fun k => pyContains (pyLower (name ++ " " ++ desc)) k)) = false)
    (h3 : (["shirt", "jeans", "dress", "shoes", "sneakers"].any
      (fun k => pyContains (pyLower (name ++ " " ++ desc)) k)) = false) :
    classify_category name desc = "Sports" ∧
    classify_category "battery" "" = "Sports" ∧
    classify_category "combat" "" = "Sports" := by
  refine ⟨?_, by decide, by decide⟩
  have h4 : (["bat", "ball", "cricket", "tennis", "football"].any
      (fun k => pyContains (pyLower (name ++ " " ++ desc)) k)) = true := by
    simp only [List.any_eq_true]
    exact ⟨"bat", by simp, hbat⟩
  simp [classify_category, h1, h2, h3, h4]

/-- C9 witness: the Sports keyword `"bat"` occurs inside the word
`"battery"` and triggers the Sports label. -/
theorem C9_witness :
    pyContains (pyLower ("battery" ++ " " ++ "")) "bat" = true ∧
    classify_category "battery" "" = "Sports" :=
  ⟨by decide, (C9_substring_matching "battery" "" (by decide) (by decide)
    (by decide) (by decide)).1⟩

/-! ## C4: product-name extraction -/

/-- Modelled from the claim's words (C4, as stated): the characters after
the first colon; nothing when no colon occurs. -/
def afterFirstColon : List Char → List Char
  | [] => []
  | c :: cs => if c = ':' then cs else afterFirstColon cs

/-- Modelled from the claim's words (C4, as stated): the extracted name is
the text after the first colon of the first `"product name"` line,
trimmed; `"Unknown"` when no such line exists. -/
def claimProductName (catalog_text : String) : String :=
  match (pySplitlines catalog_text).find?
      (fun line => pyStartswith (pyLower line) "product name") with
  | some line => pyStrip (String.mk (afterFirstColon line.data))
  | none => "Unknown"

/-- The amended claim's product name: as claimed, except that a matched
line containing no colon contributes the whole line (trimmed) instead of
nothing. -/
def amendedProductName (catalog_text : String) : String :=
  match (pySplitlines catalog_text).find?
      (fun line => pyStartswith (pyLower line) "product name") with
  | some line =>
    pyStrip (String.mk
      (if (':' : Char) ∈ line.data then afterFirstColon line.data else line.data))
  | none => "Unknown"

theorem pySplitOnce_of_not_mem (sep : Char) :
    ∀ l : List Char, sep ∉ l → pySplitOnce sep l = [l] := by
  intro l
  induction l with
  | nil => intro _; rfl
  | cons c cs ih =>
    intro h
    have hc : ¬c = sep := fun hc => h (hc ▸ List.mem_cons_self c cs)
    have hcs : sep ∉ cs := fun hm => h (List.mem_cons_of_mem c hm)
    simp only [pySplitOnce, if_neg hc, ih hcs]

theorem pySplitOnce_colon_of_mem :
    ∀ l : List Char, ':' ∈ l →
      ∃ pre, pySplitOnce ':' l = [pre, afterFirstColon l] := by
  intro l
  induction l with
  | nil => intro h; cases h
  | cons c cs ih =>
    intro h
    by_cases hc : c = ':'
    · subst hc
      exact ⟨[], by simp [pySplitOnce, afterFirstColon]⟩
    · have hcs : (':' : Char) ∈ cs := by
        rcases List.mem_cons.mp h with h' | h'
        · exact absurd h'.symm hc
        · exact h'
      obtain ⟨pre, hpre⟩ := ih hcs
      exact ⟨c :: pre, by simp [pySplitOnce, hc, hpre, afterFirstColon]⟩

theorem pySplitOnce_getLastD (l : List Char) :
    (pySplitOnce ':' l).getLastD [] =
      if (':' : Char) ∈ l then afterFirstColon l else l := by
  by_cases h : (':' : Char) ∈ l
  · obtain ⟨pre, hpre⟩ := pySplitOnce_colon_of_mem l h
    simp [hpre, h, List.getLastD_cons, List.getLastD_nil]
  · simp [pySplitOnce_of_not_mem ':' l h, h, List.getLastD_cons, List.getLastD_nil]

/-- C4 counterexample: the claim makes the extracted name the text after
the first `':'` of the matched line; on a matched line with no colon
(`"Product Name Widget"`) the source's `split(":", 1)[-1]` yields the
whole line, not the (empty) text after a colon. -/
theorem C4_counterexample :
    extract_product_name "Product Name Widget\nCategory: Other" = "Product Name Widget" ∧
    claimProductName "Product Name Widget\nCategory: Other" = "" ∧
    extract_product_name "Product Name Widget\nCategory: Other" ≠
      claimProductName "Product Name Widget\nCategory: Other" :=
  ⟨by decide, by decide, by decide⟩

/-- C4 (amended): the extracted product name is the text after the first
`':'` of the first line whose lower-cased form starts with
`"product name"`, trimmed — except that a matched line with no `':'`
contributes the entire line, trimmed; `"Unknown"` when no such line
exists. -/
theorem C4_product_name (catalog_text : String) :
    extract_product_name catalog_text = amendedProductName catalog_text ∧
    ((∀ line ∈ pySplitlines catalog_text,
        pyStartswith (pyLower line) "product name" = false) →
      extract_product_name catalog_text = "Unknown") := by
  constructor
  · unfold extract_product_name amendedProductName
    cases hf : (pySplitlines catalog_text).find?
        (fun line => pyStartswith (pyLower line) "product name") with
    | none => rfl
    | some line =>
      dsimp only
      rw [pySplitOnce_getLastD]
  · intro h
    have hf : (pySplitlines catalog_text).find?
        (fun line => pyStartswith (pyLower line) "product name") = none := by
      rw [List.find?_eq_none]
      intro x hx
      simp [h x hx]
    unfold extract_product_name
    rw [hf]

/-- C4 witness: a response with no product-name line gives `"Unknown"`. -/
theorem C4_witness :
    extract_product_name "no header" = amendedProductName "no header" ∧
    extract_product_name "no header" = "Unknown" :=
  ⟨(C4_product_name "no header").1, (C4_product_name "no header").2 (by decide)⟩

/-! ## C5: specifications-block extraction -/

/-- Modelled from the claim's words (C5, as stated): the block is exactly
the lines after the first specifications line joined with line breaks (no
trimming); empty when no such line exists. -/
def claimSpecsBlock (catalog_text : String) : String :=
  let lines := pySplitlines catalog_text
  match lines.findIdx? (fun line => pyStartswith (pyLower line) "specifications") with
  | some i => joinNl (lines.drop (i + 1))
  | none => ""

/-- C5 counterexample: the source strips the joined block
(`"\n".join(lines[i+1:]).strip()`); with a blank line right after
`"Specifications:"` the claimed block keeps its leading line break while
the source's block does not. -/
theorem C5_counterexample :
    extract_specs "Specifications:\n\n- A: 1" = "- A: 1" ∧
    claimSpecsBlock "Specifications:\n\n- A: 1" = "\n- A: 1" ∧
    extract_specs "Specifications:\n\n- A: 1" ≠
      claimSpecsBlock "Specifications:\n\n- A: 1" :=
  ⟨by decide, by decide, by decide⟩

/-- C5 (amended): the extracted specifications block is the text of all
lines following the first line whose lower-cased form starts with
`"specifications"`, joined back with line breaks and trimmed of
surrounding whitespace; the empty string when no such line exists. -/
theorem C5_specs_block (catalog_text : String) :
    extract_specs catalog_text = pyStrip (claimSpecsBlock catalog_text) ∧
    ((∀ line ∈ pySplitlines catalog_text,
        pyStartswith (pyLower line) "specifications" = false) →
      extract_specs catalog_text = "") := by
  constructor
  · cases hf : (pySplitlines catalog_text).findIdx?
        (fun line => pyStartswith (pyLower line) "specifications") with
    | none =>
      simp only [extract_specs, claimSpecsBlock, hf]
      rfl
    | some i =>
      simp only [extract_specs, claimSpecsBlock, hf]
  · intro h
    have hf : (pySplitlines catalog_text).findIdx?
        (fun line => pyStartswith (pyLower line) "specifications") = none :=
      List.findIdx?_eq_none_iff.mpr h
    simp only [extract_specs, hf]

/-- C5 witness: a response with no specifications line gives the empty
block. -/
theorem C5_witness :
    extract_specs "no specs here" = pyStrip (claimSpecsBlock "no specs here") ∧
    extract_specs "no specs here" = "" :=
  ⟨(C5_specs_block "no specs here").1, (C5_specs_block "no specs here").2 (by decide)⟩

/-! ## C3: the augmentation trigger -/

/-- C3: augmentation is needed exactly when the specifications block is
empty, has fewer than five lines, or some line contains the literal
marker phrase; and a record built when the trigger is off stores an empty
`web_scraped_info` and does not depend on the web-fetch oracle at all. -/
theorem C3_augmentation_trigger (specs : String) :
    (needs_scrape specs = true ↔
      specs = "" ∨ (pySplitlines specs).length < 5 ∨
        ∃ line ∈ pySplitlines specs,
          pyContains line "Requires further information" = true) ∧
    (∀ (it : UploadItem) (secure : String → String) (catalog_text : String),
      extract_specs catalog_text = specs → needs_scrape specs = false →
      (buildRecord it secure catalog_text).web_scraped_info = "" ∧
      (buildRecord it secure catalog_text).catalog_entry = catalog_text ∧
      ∀ fetch', buildRecord { it with fetch := fetch' } secure catalog_text =
        buildRecord it secure catalog_text) := by
  constructor
  · simp only [needs_scrape, Bool.or_eq_true, beq_iff_eq, decide_eq_true_eq,
      List.any_eq_true]
    tauto
  · intro it secure catalog_text hspecs hoff
    have hoff' : needs_scrape (extract_specs catalog_text) = false := by
      rw [hspecs]; exact hoff
    refine ⟨?_, ?_, ?_⟩
    · simp [buildRecord, hoff']
    · simp [buildRecord, hoff']
    · intro fetch'
      simp [buildRecord, hoff']

/-- C3 witness: a five-line specifications block without the marker does
not trigger augmentation, and the built record stores `""`. -/
theorem C3_witness :
    needs_scrape (extract_specs (pyStrip respFull)) = false ∧
    (buildRecord itemGood id (pyStrip respFull)).web_scraped_info = "" := by
  refine ⟨by decide, ?_⟩
  exact ((C3_augmentation_trigger (extract_specs (pyStrip respFull))).2 itemGood id
    (pyStrip respFull) rfl (by decide)).1

/-! ## C6: the spec augmenter is total and shape-restricted -/

/-- C6: for every fetch/parse behaviour the augmenter returns a non-empty
string of one of exactly three shapes: a failure message embedding the
reason, the fixed no-specs message (when no snippet matches), or a
hyphen-bulleted join of at most five matching snippets; moreover every
matching snippet contains the first five characters of the lower-cased
product name. -/
theorem C6_scraper_shapes (fetch : Except String (List String)) (product_name : String) :
    ((∃ e, fetch = Except.error e ∧
        scrape_specs fetch product_name = "Web scraping failed: " ++ e) ∨
      (∃ snippets, fetch = Except.ok snippets ∧
        matchingSnippets product_name snippets = [] ∧
        scrape_specs fetch product_name = "No detailed specs found online.") ∨
      (∃ snippets, fetch = Except.ok snippets ∧
        matchingSnippets product_name snippets ≠ [] ∧
        ((matchingSnippets product_name snippets).take 5).length ≤ 5 ∧
        scrape_specs fetch product_name =
          joinNl (((matchingSnippets product_name snippets).take 5).map
            (fun i => "- " ++ i)))) ∧
    (∀ snippets s, s ∈ matchingSnippets product_name snippets →
      pyContains (pyLower s) (String.mk ((pyLower product_name).data.take 5)) = true) ∧
    scrape_specs fetch product_name ≠ "" := by
  refine ⟨?_, ?_, ?_⟩
  · cases fetch with
    | error e => exact Or.inl ⟨e, rfl, rfl⟩
    | ok snippets =>
      by_cases hempty : (matchingSnippets product_name snippets).isEmpty
      · refine Or.inr (Or.inl ⟨snippets, rfl, List.isEmpty_iff.mp hempty, ?_⟩)
        simp [scrape_specs, hempty]
      · refine Or.inr (Or.inr ⟨snippets, rfl, ?_, ?_, ?_⟩)
        · exact fun h => hempty (by simp [h])
        · simp
        · simp [scrape_specs, hempty]
  · intro snippets s hs
    exact (List.mem_filter.mp hs).2
  · cases fetch with
    | error e =>
      intro h
      have hdata : ("Web scraping failed: " ++ e).data = [] := congrArg String.data h
      rw [String.data_append] at hdata
      exact absurd (List.append_eq_nil.mp hdata).1 (by decide)
    | ok snippets =>
      by_cases hempty : (matchingSnippets product_name snippets).isEmpty
      · simp [scrape_specs, hempty]
      · simp only [scrape_specs, hempty, Bool.false_eq_true, if_false]
        obtain ⟨a, rest, hrest⟩ : ∃ a rest,
            (matchingSnippets product_name snippets).take 5 = a :: rest := by
          cases htake : (matchingSnippets product_name snippets).take 5 with
          | nil =>
            rcases hm : matchingSnippets product_name snippets with _ | ⟨b, bs⟩
            · simp [hm] at hempty
            · rw [hm] at htake; simp at htake
          | cons a rest => exact ⟨a, rest, rfl⟩
        rw [hrest]
        intro hcontra
        have hdata := congrArg String.data hcontra
        simp only [joinNl, List.map_cons] at hdata
        cases hrest2 : rest with
        | nil =>
          rw [hrest2] at hdata
          simp [List.intercalate, String.data_append] at hdata
        | cons b bs =>
          rw [hrest2] at hdata
          simp [List.intercalate, List.intersperse, String.data_append] at hdata

/-! ## C1: batch processing is per-item and order-preserving -/

/-- C1: the batch output has exactly one result per input file, in input
order (the i-th result is the processing of the i-th file); every result
is a success shape or an error shape; and the result at one position
depends only on the file at that position, so a failing item never
affects any other item of the batch. -/
theorem C1_batch_per_item (secure : String → String) (files : List UploadItem) :
    (generate_catalog secure files).length = files.length ∧
    (∀ i : Nat, (generate_catalog secure files)[i]? =
      (files[i]?).map (processItem secure)) ∧
    (∀ r ∈ generate_catalog secure files,
      (∃ rec, r = ItemResult.ok rec) ∨ ∃ f e, r = ItemResult.err f e) ∧
    (∀ (files' : List UploadItem) (i : Nat), files[i]? = files'[i]? →
      (generate_catalog secure files)[i]? =
        (generate_catalog secure files')[i]?) := by
  refine ⟨?_, ?_, ?_, ?_⟩
  · simp [generate_catalog]
  · intro i
    simp [generate_catalog]
  · intro r _
    cases r with
    | ok rec => exact Or.inl ⟨rec, rfl⟩
    | err f e => exact Or.inr ⟨f, e, rfl⟩
  · intro files' i h
    simp [generate_catalog, h]

/-- C1 witness: in the concrete three-item batch whose second item has an
undecodable image, the output has three entries, the second is the error
entry for that item, and the first and third are the success entries of
their items — the middle failure affected neither. -/
theorem C1_witness :
    (generate_catalog id batch3).length = 3 ∧
    (generate_catalog id batch3)[1]? =
      some (ItemResult.err "b.png" "cannot identify image file") ∧
    ((∃ rec, ItemResult.err "b.png" "cannot identify image file" = ItemResult.ok rec) ∨
      ∃ f e, ItemResult.err "b.png" "cannot identify image file" = ItemResult.err f e) ∧
    (generate_catalog id batch3)[0]? =
      (generate_catalog id [itemGood, itemBad, itemBad])[0]? := by
  refine ⟨?_, ?_, ?_, ?_⟩
  · exact (C1_batch_per_item id batch3).1.trans (by decide)
  · exact ((C1_batch_per_item id batch3).2.1 1).trans (by decide)
  · exact (C1_batch_per_item id batch3).2.2.1 _ (by decide)
  · exact (C1_batch_per_item id batch3).2.2.2 [itemGood, itemBad, itemBad] 0 (by decide)

/-! ## C10: sanitized versus raw filenames in the results -/

theorem processItem_shape (secure : String → String) (it : UploadItem) :
    (∃ rawText, it.modelResp = Except.ok rawText ∧
      processItem secure it = ItemResult.ok (buildRecord it secure (pyStrip rawText))) ∨
    ∃ e, processItem secure it = ItemResult.err it.rawFilename e := by
  obtain ⟨raw, save, dec, resp, fetch, ins⟩ := it
  cases save with
  | error e => exact Or.inr ⟨e, rfl⟩
  | ok u =>
    cases dec with
    | error e => exact Or.inr ⟨e, rfl⟩
    | ok u2 =>
      cases resp with
      | error e => exact Or.inr ⟨e, rfl⟩
      | ok rawText =>
        cases ins with
        | error e => exact Or.inr ⟨e, rfl⟩
        | ok u3 => exact Or.inl ⟨rawText, rfl, rfl⟩

/-- C10: a success result reports the sanitized filename (the external
sanitizer applied to the uploaded name, as persisted), while an error
result always reports the raw client-supplied name. -/
theorem C10_result_filenames (secure : String → String) (it : UploadItem) :
    (∀ f e, processItem secure it = ItemResult.err f e → f = it.rawFilename) ∧
    (∀ r, processItem secure it = ItemResult.ok r →
      r.filename = secure it.rawFilename) := by
  rcases processItem_shape secure it with ⟨rawText, _, hok⟩ | ⟨e, herr⟩
  · constructor
    · intro f e h
      rw [hok] at h
      simp at h
    · intro r h
      rw [hok] at h
      injection h with h1
      rw [← h1]
      rfl
  · constructor
    · intro f e2 h
      rw [herr] at h
      injection h with h1 h2
      exact h1.symm
    · intro r h
      rw [herr] at h
      simp at h

/-- C10 witness: the failing item's error entry carries its raw filename,
and a succeeding item's record carries the sanitized one. -/
theorem C10_witness :
    (processItem (fun s => "s_" ++ s) itemBad =
        ItemResult.err "b.png" "cannot identify image file" → "b.png" = itemBad.rawFilename) ∧
    ∀ r, processItem (fun s => "s_" ++ s) itemGood = ItemResult.ok r →
      r.filename = "s_" ++ itemGood.rawFilename :=
  ⟨(C10_result_filenames (fun s => "s_" ++ s) itemBad).1 "b.png" "cannot identify image file",
   (C10_result_filenames (fun s => "s_" ++ s) itemGood).2⟩

/-! ## C7: export skips exactly the undecodable records -/

theorem allOps_showPage (st : ExportState) : allOps (showPage st) = allOps st := by
  simp [allOps, showPage]

theorem allOps_textLineStep (st : ExportState) (line : String) :
    allOps (textLineStep st line) = allOps st ++ [PdfOp.text line] := by
  unfold textLineStep
  split
  · simp [allOps, showPage]
  · simp [allOps, List.append_assoc]

theorem allOps_foldl_text (lines : List String) :
    ∀ st : ExportState,
      allOps (lines.foldl textLineStep st) = allOps st ++ lines.map PdfOp.text := by
  induction lines with
  | nil => intro st; simp
  | cons l ls ih =>
    intro st
    simp [List.foldl_cons, ih, allOps_textLineStep, List.append_assoc]

theorem decodableB_some_iff (w h : Nat) (cat : String) :
    decodableB ⟨some (w, h), cat⟩ = true ↔ ¬(w = 0 ∨ h = 0) := by
  simp [decodableB, not_or]

theorem drawEntry_skip (st : ExportState) (e : DbEntry) (h : decodableB e = false) :
    drawEntry st e = st := by
  obtain ⟨im, cat⟩ := e
  cases im with
  | none => rfl
  | some p =>
    obtain ⟨w, ht⟩ := p
    have h0 : w = 0 ∨ ht = 0 := by
      by_contra hc
      exact absurd ((decodableB_some_iff w ht cat).mpr hc) (by simp [h])
    simp [drawEntry, h0]

theorem allOps_setY (st : ExportState) (v : ℚ) :
    allOps { st with y := v } = allOps st := rfl

theorem allOps_drawEntry (st : ExportState) (e : DbEntry) (w h : Nat)
    (him : e.image_decode = some (w, h)) (hwh : ¬(w = 0 ∨ h = 0)) :
    allOps (drawEntry st e) =
      allOps st ++
        PdfOp.img w h 40 (st.y - (imgDims w h).2) (imgDims w h).1 (imgDims w h).2 ::
          (pySplitlines e.catalog_entry).map PdfOp.text := by
  obtain ⟨im, cat⟩ := e
  simp only at him
  subst him
  simp only [drawEntry, if_neg hwh]
  have hfold := allOps_foldl_text (pySplitlines cat)
    { pages := st.pages,
      cur := st.cur ++
        [PdfOp.img w h 40 (st.y - (imgDims w h).2) (imgDims w h).1 (imgDims w h).2],
      y := st.y - ((imgDims w h).2 + 10) }
  split
  · rw [allOps_showPage, allOps_setY, hfold]
    simp [allOps, List.append_assoc]
  · rw [allOps_setY, hfold]
    simp [allOps, List.append_assoc]

theorem allOps_drawEntry_mono (st : ExportState) (e : DbEntry) (op : PdfOp)
    (h : op ∈ allOps st) : op ∈ allOps (drawEntry st e) := by
  by_cases hd : decodableB e = true
  · obtain ⟨im, cat⟩ := e
    cases im with
    | none => simp [decodableB] at hd
    | some p =>
      obtain ⟨w, ht⟩ := p
      have h0 : ¬(w = 0 ∨ ht = 0) := (decodableB_some_iff w ht cat).mp hd
      rw [allOps_drawEntry st ⟨some (w, ht), cat⟩ w ht rfl h0]
      exact List.mem_append_left _ h
  · rw [drawEntry_skip st e (by revert hd; cases decodableB e <;> simp)]
    exact h

theorem mem_allOps_foldl (l : List DbEntry) :
    ∀ (st : ExportState) (op : PdfOp), op ∈ allOps st →
      op ∈ allOps (l.foldl drawEntry st) := by
  induction l with
  | nil => intro st op h; exact h
  | cons e es ih =>
    intro st op h
    exact ih (drawEntry st e) op (allOps_drawEntry_mono st e op h)

theorem foldl_drawEntry_filter (l : List DbEntry) :
    ∀ st, (l.filter decodableB).foldl drawEntry st = l.foldl drawEntry st := by
  induction l with
  | nil => intro st; rfl
  | cons e es ih =>
    intro st
    by_cases hd : decodableB e = true
    · simp [List.filter_cons, hd, List.foldl_cons, ih]
    · have hd' : decodableB e = false := by revert hd; cases decodableB e <;> simp
      simp [List.filter_cons, hd', List.foldl_cons, ih,
        drawEntry_skip st e hd']

theorem docOps_export (entries : List DbEntry) :
    docOps (export_pdf entries) =
      allOps (entries.foldl drawEntry { pages := [], cur := [], y := pageHeight - 40 }) := by
  simp [docOps, export_pdf, allOps]

theorem mem_ops_of_mem_entries (l : List DbEntry) :
    ∀ (st : ExportState) (e : DbEntry), e ∈ l →
      ∀ w h, e.image_decode = some (w, h) → ¬(w = 0 ∨ h = 0) →
        (∀ line ∈ pySplitlines e.catalog_entry,
          PdfOp.text line ∈ allOps (l.foldl drawEntry st)) ∧
        ∃ ypos, PdfOp.img w h 40 ypos (imgDims w h).1 (imgDims w h).2 ∈
          allOps (l.foldl drawEntry st) := by
  induction l with
  | nil => intro st e he; cases he
  | cons a as ih =>
    intro st e he w h him h0
    rcases List.mem_cons.mp he with rfl | hmem
    · constructor
      · intro line hline
        refine mem_allOps_foldl as (drawEntry st e) _ ?_
        rw [allOps_drawEntry st e w h him h0]
        exact List.mem_append_right _
          (List.mem_cons_of_mem _ (List.mem_map_of_mem _ hline))
      · refine ⟨st.y - (imgDims w h).2, mem_allOps_foldl as (drawEntry st e) _ ?_⟩
        rw [allOps_drawEntry st e w h him h0]
        exact List.mem_append_right _ (List.mem_cons_self _ _)
    · exact ih (drawEntry st a) e hmem w h him h0

/-- C7: the exported document is unchanged by removing the records whose
stored image fails to decode (each such record is skipped entirely,
contributing no page content, and never surfaces an error — `export_pdf`
is total); and the document contains the drawn image and every catalog
text line of every decodable record. -/
theorem C7_export_skips_undecodable (entries : List DbEntry) :
    export_pdf entries = export_pdf (entries.filter decodableB) ∧
    (∀ e ∈ entries, ∀ w h : Nat, e.image_decode = some (w, h) → w ≠ 0 → h ≠ 0 →
      (∀ line ∈ pySplitlines e.catalog_entry,
        PdfOp.text line ∈ docOps (export_pdf entries)) ∧
      ∃ ypos, PdfOp.img w h 40 ypos (imgDims w h).1 (imgDims w h).2 ∈
        docOps (export_pdf entries)) := by
  constructor
  · unfold export_pdf
    rw [foldl_drawEntry_filter]
  · intro e he w h him hw hh
    have h0 : ¬(w = 0 ∨ h = 0) := by tauto
    have := mem_ops_of_mem_entries entries
      { pages := [], cur := [], y := pageHeight - 40 } e he w h him h0
    rw [docOps_export]
    exact this

/-- C7 witness: with one decodable and one undecodable record, the
document equals the export of the decodable records alone and contains
the decodable record's text lines. -/
theorem C7_witness :
    export_pdf entriesEx = export_pdf (entriesEx.filter decodableB) ∧
    PdfOp.text "Hello" ∈ docOps (export_pdf entriesEx) ∧
    PdfOp.text "World" ∈ docOps (export_pdf entriesEx) := by
  refine ⟨(C7_export_skips_undecodable entriesEx).1, ?_, ?_⟩
  · exact ((C7_export_skips_undecodable entriesEx).2 entryGood (by decide) 400 300 rfl
      (by decide) (by decide)).1 "Hello" (by decide)
  · exact ((C7_export_skips_undecodable entriesEx).2 entryGood (by decide) 400 300 rfl
      (by decide) (by decide)).1 "World" (by decide)
